import Mathlib

/-!
Shallow embedding of the change-set engine of the `drive` synchronizer
(package `drive`): the unified `File` entity, the difference classifier
`fileDifferences`, operation derivation `Change.op` / `Change.Op`, the
directory merger `merge`, the conflict resolver `conflict` /
`resolveConflicts`, the quota classifier `QuotaStatus`, and the ignore-regex
application sites (`resolveToLocalFile` and the local walker `list`).

Modelling conventions:
* Go `time.Time` instants are modelled as `Int` nanoseconds since the epoch
  (`GoTime`); `Time.Unix` is floor division by 10^9, `Time.Round(time.Second)`
  rounds to the nearest second with halfway values rounded up, and
  `Time.Equal` / `UTC` compare or keep the instant itself.
* Reading and hashing a file's bytes (the `os.Open`/`io.Copy` tail of
  `md5Checksum`) is modelled by an oracle `hash : String → Option String`
  mapping a `BlobAt` path to its content hash (`none` models an open or read
  error, which the Go code turns into the empty checksum). The instrumented
  variants (`md5ChecksumR`, `fileDifferencesR`) additionally return a `Bool`
  recording whether the blob was read at all.
* The compiled `.driveignore` regular expression is modelled as an opaque
  predicate `String → Bool` (its `Match` method); compiling the regex is
  outside the embedded core.
* Go `nil` pointers to `File` / index records are `Option`.
* Fields never consulted by the embedded functions (`UserPermission`,
  `OwnerNames`, `Permissions`) are omitted from the `File` structure.
-/

namespace Drive

/-- Go `time.Time`, as an instant: nanoseconds since the Unix epoch. -/
abbrev GoTime := Int

def nsPerSecond : Int := 1000000000

/-- `t.Unix()`: whole seconds since the epoch (floor). -/
def timeUnix (t : GoTime) : Int := Int.fdiv t nsPerSecond

/-- `t.Round(time.Second)`: nearest multiple of a second, halfway rounded up. -/
def timeRound (t : GoTime) : GoTime :=
  let r := Int.emod t nsPerSecond
  if 2 * r < nsPerSecond then t - r else t - r + nsPerSecond

/-- `t.Equal(u)`: the two values represent the same instant. -/
def timeEqual (a b : GoTime) : Bool := a == b

/-- The unified local/remote file entity (`type File struct`).  The opaque
permission fields (`UserPermission`, `OwnerNames`, `Permissions`), unused by
every embedded function, are omitted. -/
structure File where
  AlternateLink : String := ""
  BlobAt : String := ""
  Copyable : Bool := false
  ExportLinks : List (String × String) := []
  Id : String := ""
  IsDir : Bool := false
  Md5Checksum : String := ""
  MimeType : String := ""
  ModTime : GoTime := 0
  Name : String := ""
  Size : Int := 0
  Etag : String := ""
  Shared : Bool := false
  CacheChecksum : Bool := false
  Version : Int := 0
  deriving DecidableEq, Repr

/-- Go `type Operation int` with its `iota` constants. -/
abbrev Operation := Int

def OpNone : Operation := 0
def OpAdd : Operation := 1
def OpDelete : Operation := 2
def OpMod : Operation := 3
def OpModConflict : Operation := 4

/-- The difference bitmask constants (`DifferNone` and the `1 << iota` run). -/
def DifferNone : Nat := 0
def DifferDirType : Nat := 2
def DifferMd5Checksum : Nat := 4
def DifferModTime : Nat := 8
def DifferSize : Nat := 16

def DriveFolderMimeType : String := "application/vnd.google-apps.folder"

/-- `os.FileInfo` as consumed by `NewLocalFile`: name, size, mod time, kind. -/
structure FileInfo where
  name : String
  size : Int
  modTime : GoTime
  isDir : Bool
  deriving DecidableEq, Repr

/-- `NewLocalFile(absPath, f)`: builds a `File` from a filesystem stat.  Note
that `Size` is copied verbatim from the stat, also for directories. -/
def NewLocalFile (absPath : String) (f : FileInfo) : File :=
  { Id := ""
    Name := f.name
    ModTime := timeRound f.modTime
    IsDir := f.isDir
    Size := f.size
    BlobAt := absPath
    CacheChecksum := true }

/-- The remote API file (`*drive.File`) as consumed by `NewRemoteFile`.
`ModifiedDate` is the already-parsed instant of the RFC3339 date string; a
parse failure yields Go's zero time, modelled as `0`. -/
structure RemoteApiFile where
  AlternateLink : String := ""
  DownloadUrl : String := ""
  Copyable : Bool := false
  Etag : String := ""
  ExportLinks : List (String × String) := []
  Id : String := ""
  MimeType : String := ""
  Md5Checksum : String := ""
  ModifiedDate : GoTime := 0
  Title : String := ""
  FileSize : Int := 0
  Shared : Bool := false
  Version : Int := 0
  deriving DecidableEq, Repr

/-- `NewRemoteFile(f)`.  The title-to-path conversion `urlToPath` lives in a
part of the repository outside the embedded core, so it is passed in as a
function argument. -/
def NewRemoteFile (urlToPath : String → Bool → String) (f : RemoteApiFile) : File :=
  { AlternateLink := f.AlternateLink
    BlobAt := f.DownloadUrl
    Copyable := f.Copyable
    Etag := f.Etag
    ExportLinks := f.ExportLinks
    Id := f.Id
    IsDir := f.MimeType == DriveFolderMimeType
    Md5Checksum := f.Md5Checksum
    MimeType := f.MimeType
    ModTime := timeRound f.ModifiedDate
    Name := urlToPath f.Title true
    Size := f.FileSize
    Shared := f.Shared
    Version := f.Version }

/-- Instrumented `md5Checksum(f)`: the returned checksum together with a flag
recording whether the file's blob (`BlobAt`) was opened and hashed.  The
`hash` oracle stands for opening and hashing the blob; `none` models the
error paths that Go turns into an empty checksum.  The write-back of the
computed checksum into `f.Md5Checksum` under `CacheChecksum` is a memoization
of the same oracle value and is not modelled. -/
def md5ChecksumR (hash : String → Option String) : Option File → String × Bool
  | none => ("", false)
  | some f =>
    if f.IsDir then ("", false)
    else if f.Md5Checksum != "" then (f.Md5Checksum, false)
    else
      match hash f.BlobAt with
      | none => ("", true)
      | some checksum => (checksum, true)

/-- `md5Checksum(f)`: just the checksum. -/
def md5Checksum (hash : String → Option String) (f : Option File) : String :=
  (md5ChecksumR hash f).1

def checksumDiffers (mask : Nat) : Bool := (mask &&& DifferMd5Checksum) != 0

def dirTypeDiffers (mask : Nat) : Bool := (mask &&& DifferDirType) != 0

def modTimeDiffers (mask : Nat) : Bool := (mask &&& DifferModTime) != 0

def sizeDiffers (mask : Nat) : Bool := (mask &&& DifferSize) != 0

/-- Instrumented `fileDifferences(src, dest, ignoreChecksum)`: the difference
bitmask together with a flag recording whether any blob was read (i.e.
whether `md5Checksum` reached its hashing tail on either operand).  The
`||` in the Go checksum condition short-circuits: when the size already
differs no checksum is computed. -/
def fileDifferencesR (hash : String → Option String)
    (src dest : Option File) (ignoreChecksum : Bool) : Nat × Bool :=
  match src, dest with
  | some s, some d =>
    let difference :=
      (if s.Size != d.Size then DifferSize else 0) |||
      (if !timeEqual s.ModTime d.ModTime then DifferModTime else 0) |||
      (if s.IsDir != d.IsDir then DifferDirType else 0)
    if ignoreChecksum && sizeDiffers difference then
      (difference ||| DifferMd5Checksum, false)
    else
      if sizeDiffers difference then (difference ||| DifferMd5Checksum, false)
      else
        let cs := md5ChecksumR hash src
        let cd := md5ChecksumR hash dest
        if cs.1 != cd.1 then (difference ||| DifferMd5Checksum, cs.2 || cd.2)
        else (difference, cs.2 || cd.2)
  | _, _ => (DifferMd5Checksum ||| DifferSize ||| DifferModTime ||| DifferDirType, false)

/-- `fileDifferences(src, dest, ignoreChecksum)`: just the bitmask. -/
def fileDifferences (hash : String → Option String)
    (src dest : Option File) (ignoreChecksum : Bool) : Nat :=
  (fileDifferencesR hash src dest ignoreChecksum).1

/-- `type Change struct`. -/
structure Change where
  Dest : Option File := none
  Parent : String := ""
  Path : String := ""
  Src : Option File := none
  Force : Bool := false
  NoClobber : Bool := false
  IgnoreConflict : Bool := false
  IgnoreChecksum : Bool := false
  deriving DecidableEq, Repr

/-- `(c *Change) op()`: the raw operation derivation. -/
def Change.rawOp (hash : String → Option String) (c : Change) : Operation :=
  match c.Src, c.Dest with
  | none, none => OpNone
  | some _, none => OpAdd
  | none, some _ => OpDelete
  | some s, some d =>
    if s.IsDir != d.IsDir then OpMod
    else if s.IsDir then OpNone
    else
      let mask := fileDifferences hash (some s) (some d) c.IgnoreChecksum
      if sizeDiffers mask || checksumDiffers mask then
        if c.IgnoreConflict then OpMod else OpModConflict
      else if modTimeDiffers mask then OpMod
      else OpNone

/-- `(c *Change) Op()`: the raw operation with the force / no-clobber policy
overlay. -/
def Change.Op (hash : String → Option String) (c : Change) : Operation :=
  let op := c.rawOp hash
  if c.Force then
    if op == OpModConflict then OpMod else OpAdd
  else if op != OpAdd && c.NoClobber then OpNone
  else op

/-- A persisted index record (`config.Index`), as consumed by `conflict`. -/
structure Index where
  FileId : String := ""
  Etag : String := ""
  Md5Checksum : String := ""
  MimeType : String := ""
  ModTime : Int := 0
  Version : Int := 0
  deriving DecidableEq, Repr

/-- `(f *File) ToIndex()`. -/
def File.ToIndex (f : File) : Index :=
  { FileId := f.Id
    Etag := f.Etag
    Md5Checksum := f.Md5Checksum
    MimeType := f.MimeType
    ModTime := timeUnix f.ModTime
    Version := f.Version }

/-- `conflict(src, dest, index, push)`.  In its only call site `src` is the
local side and `dest` the remote side.  Go dereferences `src` without a nil
check; the claims only reach this function with `src` present, and the
`none` case here supplies Go's panic branch with a vacuous `false`. -/
def conflict (src dest : Option File) (index : Option Index) (push : Bool) : Bool :=
  match index with
  | none => false
  | some idx =>
    if push && dest.isSome && ((dest.map (fun d => timeUnix d.ModTime)).getD 0 == idx.ModTime) then
      false
    else
      match src with
      | none => false
      | some s =>
        let rounded := timeRound s.ModTime
        timeUnix rounded != idx.ModTime && s.Md5Checksum != idx.Md5Checksum

/-- The local side `l` computed at the top of the `resolveConflicts` loop:
`l, r := ch.Dest, ch.Src`, swapped on push. -/
def Change.localSide (push : Bool) (ch : Change) : Option File :=
  if push then ch.Src else ch.Dest

/-- The remote side `r` of the same swap. -/
def Change.remoteSide (push : Bool) (ch : Change) : Option File :=
  if push then ch.Dest else ch.Src

/-- The `fileId` lookup key of the `resolveConflicts` loop: the local side's
id, falling back to the remote side's id when absent or empty. -/
def Change.conflictFileId (push : Bool) (ch : Change) : String :=
  let fileId := match ch.localSide push with
    | some l => l.Id
    | none => ""
  if fileId == "" then
    match ch.remoteSide push with
    | some r => r.Id
    | none => fileId
  else fileId

/-- `resolveConflicts(conflicts, push, indexFiler)`: partitions the changes
into (resolved, unresolved); a change whose looked-up state is not a
`conflict` is resolved, and marked `IgnoreConflict = true` when its operation
is `ModConflict`. -/
def resolveConflicts (hash : String → Option String) (push : Bool)
    (indexFiler : String → Option Index) : List Change → List Change × List Change
  | [] => ([], [])
  | ch :: rest =>
    let l := ch.localSide push
    let r := ch.remoteSide push
    let fileId := ch.conflictFileId push
    let rec' := resolveConflicts hash push indexFiler rest
    if !(conflict l r (indexFiler fileId) push) then
      let marked := if ch.Op hash == OpModConflict then { ch with IgnoreConflict := true } else ch
      (marked :: rec'.1, rec'.2)
    else
      (rec'.1, ch :: rec'.2)

/-- `sift(changes)`: separates the `ModConflict` changes from the rest. -/
def sift (hash : String → Option String) : List Change → List Change × List Change
  | [] => ([], [])
  | c :: rest =>
    let rec' := sift hash rest
    if c.Op hash == OpModConflict then (rec'.1, c :: rec'.2)
    else (c :: rec'.1, rec'.2)

/-- `type dirList struct`: one merged pair.  Go's field `local` is a reserved
word in Lean and is spelled `loc`. -/
structure DirList where
  remote : Option File := none
  loc : Option File := none
  deriving DecidableEq, Repr

/-- `(d *dirList) Name()`.  Go dereferences `d.local` without a nil check in
the second branch; that panic is modelled as `none`. -/
def DirList.name : DirList → Option String
  | ⟨some r, _⟩ => some r.Name
  | ⟨none, l⟩ => l.map File.Name

/-- `asciitrie.Set` on a name-keyed container of files: replaces the entry of
the same name and returns the evicted previous entry, if any. -/
def trieSet (t : List File) (f : File) : List File × Option File :=
  match t.find? (fun x => x.Name == f.Name) with
  | some prior => (f :: t.filter (fun x => !(x.Name == f.Name)), some prior)
  | none => (f :: t, none)

/-- `asciitrie.Get` by name. -/
def trieGet (t : List File) (n : String) : Option File :=
  t.find? (fun x => x.Name == n)

/-- `asciitrie.Pop` by name. -/
def triePop (t : List File) (n : String) : List File :=
  t.filter (fun x => !(x.Name == n))

/-- The remote-stream loop of `merge`, followed by the walk over leftover
locals.  State: the remote-name trie (consulted only when clashes are not
ignored) and the locals trie. -/
def mergeGo (remTrie locTrie : List File) (ign : Bool) : List File → List DirList × List File
  | [] => (locTrie.map (fun l => { remote := none, loc := some l }), [])
  | r :: rest =>
    if ign then
      let lopt := trieGet locTrie r.Name
      let locTrie2 := if lopt.isSome then triePop locTrie r.Name else locTrie
      let rec' := mergeGo remTrie locTrie2 ign rest
      ({ remote := some r, loc := lopt } :: rec'.1, rec'.2)
    else
      let setRes := trieSet remTrie r
      match setRes.2 with
      | some evicted =>
        let rec' := mergeGo setRes.1 locTrie ign rest
        (rec'.1, evicted :: rec'.2)
      | none =>
        let lopt := trieGet locTrie r.Name
        let locTrie2 := if lopt.isSome then triePop locTrie r.Name else locTrie
        let rec' := mergeGo setRes.1 locTrie2 ign rest
        ({ remote := some r, loc := lopt } :: rec'.1, rec'.2)

/-- `merge(remotes, locals, ignoreClashes)`: the two lazy child streams are
finite lists; the locals are first folded into the locals trie, then the
remote loop of `mergeGo` runs. -/
def merge (remotes locals : List File) (ignoreClashes : Bool) : List DirList × List File :=
  let locTrie := locals.foldl (fun t l => (trieSet t l).1) []
  mergeGo [] locTrie ignoreClashes remotes

/-- `drive.About`, restricted to the fields `QuotaStatus` consults. -/
structure About where
  QuotaBytesTotal : Int := 0
  QuotaBytesUsed : Int := 0
  deriving DecidableEq, Repr

/-- The quota classification constants (`iota` run). -/
def Barely : Int := 0
def AlmostExceeded : Int := 1
def HalfwayExceeded : Int := 2
def Exceeded : Int := 3
def Unknown : Int := 4

/-- `(g *Commands) QuotaStatus(query)`.  The `About()` remote call is the
`about` argument (`none` models a query error).  The Go `float64` ratio
comparisons `percentage < 0.5` and `percentage < 0.8` are modelled as the
exact rational comparisons `2 * toBeUsed < total` and
`5 * toBeUsed < 4 * total` (the total is positive in that branch). -/
def QuotaStatus (query : Int) (about : Option About) : Int :=
  if query < 0 then Unknown
  else
    match about with
    | none => Unknown
    | some a =>
      if a.QuotaBytesTotal < 1 then Unknown
      else
        let toBeUsed := query + a.QuotaBytesUsed
        if toBeUsed ≥ a.QuotaBytesTotal then Exceeded
        else if 2 * toBeUsed < a.QuotaBytesTotal then Barely
        else if 5 * toBeUsed < 4 * a.QuotaBytesTotal then HalfwayExceeded
        else AlmostExceeded

/-- The outcome of `os.Stat` as consumed by `resolveToLocalFile`: `statError`
is a stat failure other than not-exists; `statMissing` is not-exists (Go's
`localinfo == nil`); `statInfo` is a successful stat. -/
inductive StatResult where
  | statError
  | statMissing
  | statInfo (info : FileInfo)
  deriving DecidableEq, Repr

/-- `(g *Commands) resolveToLocalFile(relToRoot, fsPath)`.  The compiled
`.driveignore` regex is `ignoreRegexp` (`none` when no ignore file is in
force) and the stat of `fsPath` is the `stat` argument.  `Except.error`
collects the two error returns. -/
def resolveToLocalFile (ignoreRegexp : Option (String → Bool))
    (relToRoot fsPath : String) (stat : StatResult) : Except String (Option File) :=
  if (match ignoreRegexp with | some rx => rx relToRoot | none => false) then
    Except.error "ignored"
  else
    match stat with
    | StatResult.statError => Except.error "stat"
    | StatResult.statMissing => Except.ok none
    | StatResult.statInfo info => Except.ok (some (NewLocalFile fsPath info))

/-- `isHidden(p, ignore)`.  The Go test `strings.HasPrefix(p, ".")` is the
one-character prefix test, modelled on the string's character list. -/
def isHidden (p : String) (ignore : Bool) : Bool :=
  match p.data with
  | [] => false
  | c :: _ => if c == '.' then !ignore else false

/-- The per-child filter of the local walker `list` (push.go): a directory
entry named `name` is forwarded iff it is not the drive-metadata directory
(`gdDirSuffix`, the `config.GDDirSuffix` constant, defined outside the
embedded core and passed in), the ignore regex does not match **the bare
entry name**, and the hidden-file policy admits it.  The symlink resolution
that follows for emitted entries involves further filesystem calls and is
outside this pure model. -/
def listEmitsChild (gdDirSuffix : String) (ignore : Option (String → Bool))
    (hidden : Bool) (name : String) : Bool :=
  !(name == gdDirSuffix) &&
  !(match ignore with | some rx => rx name | none => false) &&
  !(isHidden name hidden)

/-! Spec-side definitions: these follow the wording of the claims (not the
source) and are compared with the source-translated functions above. -/

/-- The operation derivation table exactly as the claim states it: both nil
gives `None`; only src gives `Add`; only dest gives `Delete`; an `IsDir`
mismatch gives `Mod`; both directories give `None`; a set size or checksum
bit of `fileDifferences` gives `ModConflict`, downgraded to `Mod` under
`IgnoreConflict`; a set modTime bit gives `Mod`; otherwise `None`. -/
def opClaimedTable (hash : String → Option String) (c : Change) : Operation :=
  match c.Src, c.Dest with
  | none, none => OpNone
  | some _, none => OpAdd
  | none, some _ => OpDelete
  | some s, some d =>
    if s.IsDir != d.IsDir then OpMod
    else if s.IsDir && d.IsDir then OpNone
    else
      let mask := fileDifferences hash (some s) (some d) c.IgnoreChecksum
      if sizeDiffers mask || checksumDiffers mask then
        if c.IgnoreConflict then OpMod else OpModConflict
      else if modTimeDiffers mask then OpMod
      else OpNone

/-- The amended spurious-conflict test, in the claim's own terms: the index
record is looked up under the local side's id (falling back to the remote
side's id), and the conflict is spurious when (1) no index record exists,
or (2) the run is a push and the remote side's Unix-seconds modTime equals
the index's modTime, or (3) the local side's rounded-to-second UTC modTime
equals the index's modTime **or** its md5 checksum equals the index's
checksum.  (A missing local side also counts as spurious, matching the
code; the claims only exercise this with both sides present.) -/
def spuriousAmended (push : Bool) (indexFiler : String → Option Index) (ch : Change) : Bool :=
  match indexFiler (ch.conflictFileId push) with
  | none => true
  | some idx =>
    (push &&
      (match ch.remoteSide push with
       | some r => timeUnix r.ModTime == idx.ModTime
       | none => false)) ||
    (match ch.localSide push with
     | some l => timeUnix (timeRound l.ModTime) == idx.ModTime || l.Md5Checksum == idx.Md5Checksum
     | none => true)

/-- Whether a file bears the name `n`. -/
def fNamed (n : String) (f : File) : Bool := f.Name == n

/-- Whether a merged pair bears the name `n` (via `DirList.name`). -/
def dlNamed (n : String) (d : DirList) : Bool :=
  match d.name with
  | some m => m == n
  | none => false

/-- Whether a merged pair is a remote entry named `n` that got paired with a
local entry. -/
def dlPaired (n : String) (d : DirList) : Bool :=
  (match d.remote with | some r => r.Name == n | none => false) && d.loc.isSome

/-! Theorems settling the claims. -/

/-- Claim C2 (code bug): the claim says that with `ignoreChecksum = true`
the checksum bit is raised iff the size bit already is, and no blob is ever
read.  The code violates this: for two equal-sized regular files with
different contents and no cached checksum, `fileDifferences` with
`ignoreChecksum = true` falls into the hashing branch (its guard is
`ignoreChecksum && sizeDiffers`, so equal sizes send it to the `else`),
reads both blobs, and raises `DifferMd5Checksum` while `DifferSize` stays
clear.  This theorem evaluates the classifier at that failing input. -/
theorem c2_ignoreChecksum_still_hashes :
    fileDifferencesR (fun p => if p == "a" then some "h1" else some "h2")
        (some { Size := 5, BlobAt := "a" }) (some { Size := 5, BlobAt := "b" }) true
      = (DifferMd5Checksum, true) ∧
    sizeDiffers DifferMd5Checksum = false ∧
    checksumDiffers DifferMd5Checksum = true := by
  decide

/-- Claim C4 (confirmed): under `Force`, a raw `ModConflict` becomes `Mod`
and every other raw operation becomes `Add`, so a forced change never has
operation `ModConflict`; without `Force`, under `NoClobber` every change
whose raw operation is not `Add` maps to `None`. -/
theorem c4_policy_overlay (hash : String → Option String) (c : Change) :
    (c.Force = true →
      c.Op hash = (if c.rawOp hash == OpModConflict then OpMod else OpAdd) ∧
      c.Op hash ≠ OpModConflict) ∧
    (c.Force = false → c.NoClobber = true → c.rawOp hash ≠ OpAdd → c.Op hash = OpNone) := by
  constructor
  · intro hf
    refine ⟨by simp [Change.Op, hf], ?_⟩
    simp only [Change.Op, hf, if_true]
    split <;> decide
  · intro hf hnc hne
    have hb : (c.rawOp hash != OpAdd) = true := by simpa [bne_iff_ne] using hne
    simp [Change.Op, hf, hnc, hb]

/-- Witness for C4 at concrete inputs: a forced add-like change and a
no-clobber delete-like change. -/
theorem c4_policy_overlay_witness :
    (Change.Op (fun _ => none) { Src := some { Name := "f" }, Dest := none, Force := true }
        = (if Change.rawOp (fun _ => none) { Src := some { Name := "f" }, Dest := none, Force := true }
              == OpModConflict then OpMod else OpAdd) ∧
      Change.Op (fun _ => none) { Src := some { Name := "f" }, Dest := none, Force := true }
        ≠ OpModConflict) ∧
    Change.Op (fun _ => none) { Src := none, Dest := some { Name := "g" }, NoClobber := true }
      = OpNone :=
  ⟨(c4_policy_overlay (fun _ => none) { Src := some { Name := "f" }, Dest := none, Force := true }).1 rfl,
   (c4_policy_overlay (fun _ => none) { Src := none, Dest := some { Name := "g" }, NoClobber := true }).2
     rfl rfl (by decide)⟩

/-- Counterexample to claim C6 as stated: with `Force` set and both sides
nil, `Op()` returns `Add`, not `None` (the force branch of `Op` turns every
raw operation other than `ModConflict`, including the `None` of an empty
change, into `Add`). -/
theorem c6_counterexample :
    Change.Op (fun _ => none) { Src := none, Dest := none, Force := true } = OpAdd ∧
    OpAdd ≠ OpNone := by
  decide

/-- Claim C6 amended: with both sides nil and `Force` clear, `Op()` returns
`None` under any combination of the remaining flags. -/
theorem c6_nil_nil_op_none (hash : String → Option String) (c : Change)
    (hs : c.Src = none) (hd : c.Dest = none) (hf : c.Force = false) :
    c.Op hash = OpNone := by
  simp [Change.Op, Change.rawOp, hs, hd, hf]

/-- Witness for the amended C6 at a concrete empty change. -/
theorem c6_nil_nil_op_none_witness :
    Change.Op (fun _ => none) { Src := none, Dest := none, NoClobber := true, IgnoreConflict := true }
      = OpNone :=
  c6_nil_nil_op_none (fun _ => none)
    { Src := none, Dest := none, NoClobber := true, IgnoreConflict := true } rfl rfl rfl

/-- Counterexample to claim C7 as stated: with a negative projected size the
code returns `Unknown` before querying anything, even though the About query
succeeds, the quota total is at least 1, and `toBeUsed ≥ quotaBytesTotal`
(where the claim requires `Exceeded`). -/
theorem c7_counterexample :
    QuotaStatus (-1) (some { QuotaBytesTotal := 10, QuotaBytesUsed := 100 }) = Unknown ∧
    Unknown ≠ Exceeded ∧ ((10 : Int) ≤ (-1) + 100) ∧ ((1 : Int) ≤ 10) := by
  decide

/-- Claim C7 amended: for a non-negative `query`, `QuotaStatus` is `Unknown`
on a failed About query or a quota total below 1; otherwise, with
`toBeUsed = query + quotaBytesUsed`, it is `Exceeded` iff
`toBeUsed ≥ quotaBytesTotal`, and below the total it is `Barely` iff the
ratio is under 50%, `HalfwayExceeded` iff it is in [50%, 80%), and
`AlmostExceeded` iff it is in [80%, 100%) (ratio comparisons expressed
exactly over the integers). -/
theorem c7_quota_amended (query : Int) (a : About) (hq : 0 ≤ query) :
    QuotaStatus query none = Unknown ∧
    (a.QuotaBytesTotal < 1 → QuotaStatus query (some a) = Unknown) ∧
    (1 ≤ a.QuotaBytesTotal →
      (QuotaStatus query (some a) = Exceeded ↔
        a.QuotaBytesTotal ≤ query + a.QuotaBytesUsed) ∧
      (QuotaStatus query (some a) = Barely ↔
        query + a.QuotaBytesUsed < a.QuotaBytesTotal ∧
        2 * (query + a.QuotaBytesUsed) < a.QuotaBytesTotal) ∧
      (QuotaStatus query (some a) = HalfwayExceeded ↔
        query + a.QuotaBytesUsed < a.QuotaBytesTotal ∧
        a.QuotaBytesTotal ≤ 2 * (query + a.QuotaBytesUsed) ∧
        5 * (query + a.QuotaBytesUsed) < 4 * a.QuotaBytesTotal) ∧
      (QuotaStatus query (some a) = AlmostExceeded ↔
        query + a.QuotaBytesUsed < a.QuotaBytesTotal ∧
        4 * a.QuotaBytesTotal ≤ 5 * (query + a.QuotaBytesUsed))) := by
  have hq' : ¬ query < 0 := not_lt.mpr hq
  refine ⟨by simp [QuotaStatus, hq'], fun h1 => by simp [QuotaStatus, hq', h1], fun h1 => ?_⟩
  have h1' : ¬ a.QuotaBytesTotal < 1 := not_lt.mpr h1
  simp only [QuotaStatus, if_neg hq', if_neg h1']
  split_ifs with h2 h3 h4 <;>
    refine ⟨?_, ?_, ?_, ?_⟩ <;>
    simp [Barely, AlmostExceeded, HalfwayExceeded, Exceeded, Unknown] <;>
    omega

/-- Witness for the amended C7: a concrete run below half the quota. -/
theorem c7_quota_amended_witness :
    (0 : Int) ≤ 10 ∧
    QuotaStatus 10 (some { QuotaBytesTotal := 100, QuotaBytesUsed := 30 }) = Barely :=
  ⟨by decide,
   (((c7_quota_amended 10 { QuotaBytesTotal := 100, QuotaBytesUsed := 30 }
       (by decide)).2.2 (by decide)).2.1).mpr (by decide)⟩

/-- Counterexample to claim C9 as stated: `NewLocalFile` copies the stat's
size verbatim, so a directory stat with the customary nonzero on-disk size
(4096 here) yields a directory `File` whose `Size` is not 0. -/
theorem c9_counterexample :
    (NewLocalFile "/x" { name := "d", size := 4096, modTime := 0, isDir := true }).IsDir = true ∧
    (NewLocalFile "/x" { name := "d", size := 4096, modTime := 0, isDir := true }).Size ≠ 0 := by
  decide

/-- Claim C9 amended: both constructors copy the reported size verbatim (so
a directory `File` carries whatever size the stat or the API reported, not
necessarily 0); a checksum is never computed or carried for a directory:
`NewLocalFile` always leaves `Md5Checksum` empty, `NewRemoteFile` copies the
API checksum verbatim, and `md5Checksum` returns the empty string for every
directory `File` without reading its blob. -/
theorem c9_dir_size_checksum (absPath : String) (info : FileInfo)
    (urlToPath : String → Bool → String) (rf : RemoteApiFile)
    (hash : String → Option String) (f : File) (hdir : f.IsDir = true) :
    (NewLocalFile absPath info).Md5Checksum = "" ∧
    (NewLocalFile absPath info).Size = info.size ∧
    (NewRemoteFile urlToPath rf).Size = rf.FileSize ∧
    (NewRemoteFile urlToPath rf).Md5Checksum = rf.Md5Checksum ∧
    md5ChecksumR hash (some f) = ("", false) := by
  refine ⟨rfl, rfl, rfl, rfl, ?_⟩
  simp [md5ChecksumR, hdir]

/-- Witness for the amended C9 at a concrete directory `File` with a cached
checksum field and a live oracle. -/
theorem c9_dir_size_checksum_witness :
    ({ IsDir := true, Md5Checksum := "zz" } : File).IsDir = true ∧
    md5ChecksumR (fun _ => some "h") (some { IsDir := true, Md5Checksum := "zz" }) = ("", false) :=
  ⟨rfl,
   (c9_dir_size_checksum "/p" { name := "n", size := 1, modTime := 0, isDir := false }
     (fun s _ => s) {} (fun _ => some "h") { IsDir := true, Md5Checksum := "zz" } rfl).2.2.2.2⟩

/-- Claim C3 (confirmed): with `Force` and `NoClobber` clear, `Op()` follows
the claim's derivation table (`opClaimedTable`) exactly. -/
theorem c3_op_derivation (hash : String → Option String) (c : Change)
    (hf : c.Force = false) (hnc : c.NoClobber = false) :
    c.Op hash = opClaimedTable hash c := by
  have hop : c.Op hash = c.rawOp hash := by simp [Change.Op, hf, hnc]
  rw [hop]
  rcases hs : c.Src with _ | s <;> rcases hd : c.Dest with _ | d <;>
    simp [Change.rawOp, opClaimedTable, hs, hd]
  rcases hsd : s.IsDir <;> rcases hdd : d.IsDir <;> simp [hsd, hdd]

/-- Witness for C3 at a concrete modified-file change. -/
theorem c3_op_derivation_witness :
    Change.Op (fun _ => none)
        { Src := some { Name := "a", Size := 1, Md5Checksum := "m" },
          Dest := some { Name := "a", Size := 2, Md5Checksum := "k" } }
      = opClaimedTable (fun _ => none)
        { Src := some { Name := "a", Size := 1, Md5Checksum := "m" },
          Dest := some { Name := "a", Size := 2, Md5Checksum := "k" } } :=
  c3_op_derivation (fun _ => none)
    { Src := some { Name := "a", Size := 1, Md5Checksum := "m" },
      Dest := some { Name := "a", Size := 2, Md5Checksum := "k" } } rfl rfl

/-- Counterexample to claim C8 as stated: a child named `kid` of directory
`sub` has root-relative path `sub/kid`; a `.driveignore` regex that matches
exactly that path does not suppress the child during recursion, because the
walker applies the regex to the bare entry name `kid` only. -/
theorem c8_counterexample :
    listEmitsChild ".gd" (some (fun s => s == "sub/kid")) false "kid" = true ∧
    (fun s : String => s == "sub/kid") "sub/kid" = true := by
  decide

/-- Claim C8 amended: the explicit top-level check (`resolveToLocalFile`)
applies the composite ignore regex to the root-relative path — it errors out
exactly when the regex matches that path — while the local walker's
per-child filter applies the regex to the child's bare name: a matching name
suppresses the child, and a non-matching, non-hidden, non-metadata name lets
it through. -/
theorem c8_ignore_regex_targets (rx : String → Bool) (relToRoot fsPath : String)
    (stat : StatResult) (gd : String) (hidden : Bool) (name : String) :
    (rx relToRoot = true →
      resolveToLocalFile (some rx) relToRoot fsPath stat = Except.error "ignored") ∧
    (rx relToRoot = false →
      resolveToLocalFile (some rx) relToRoot fsPath stat ≠ Except.error "ignored") ∧
    (rx name = true → listEmitsChild gd (some rx) hidden name = false) ∧
    (name ≠ gd → rx name = false → isHidden name hidden = false →
      listEmitsChild gd (some rx) hidden name = true) := by
  refine ⟨fun h => ?_, fun h => ?_, fun h => ?_, fun h1 h2 h3 => ?_⟩
  · simp [resolveToLocalFile, h]
  · cases stat <;> simp [resolveToLocalFile, h]
  · simp [listEmitsChild, h]
  · simp [listEmitsChild, h1, h2, h3]

/-- Witness for the amended C8: a top-level target whose root-relative path
matches is refused, and a child whose bare name matches is filtered out. -/
theorem c8_ignore_regex_targets_witness :
    resolveToLocalFile (some (fun s => s == "x")) "x" "/r/x" StatResult.statMissing
      = Except.error "ignored" ∧
    listEmitsChild ".gd" (some (fun s => s == "x")) false "x" = false :=
  ⟨(c8_ignore_regex_targets (fun s => s == "x") "x" "/r/x" StatResult.statMissing
      ".gd" false "x").1 (by decide),
   (c8_ignore_regex_targets (fun s => s == "x") "x" "/r/x" StatResult.statMissing
      ".gd" false "x").2.2.1 (by decide)⟩

/-! Helper lemmas about the name-keyed tries and the merger. -/

theorem trieSet_snd (t : List File) (f : File) : (trieSet t f).2 = trieGet t f.Name := by
  unfold trieSet trieGet
  cases hf : t.find? (fun x => x.Name == f.Name) <;> simp [hf]

theorem any_triePop_self (t : List File) (n : String) :
    (triePop t n).any (fNamed n) = false := by
  induction t with
  | nil => rfl
  | cons x xs ih =>
    cases hx : x.Name == n
    · simp [triePop, List.filter_cons, hx, fNamed, ih]
    · simp [triePop, List.filter_cons, hx, fNamed]

theorem any_triePop_ne (t : List File) (m n : String) (h : m ≠ n) :
    (triePop t m).any (fNamed n) = t.any (fNamed n) := by
  induction t with
  | nil => rfl
  | cons x xs ih =>
    cases hx : x.Name == m
    · simp [triePop, List.filter_cons, hx, fNamed] at ih ⊢
      rw [ih]
    · have hxm : x.Name = m := by simpa using hx
      have hxn : (x.Name == n) = false := beq_eq_false_iff_ne.mpr (by rw [hxm]; exact h)
      simp [triePop, List.filter_cons, hx, fNamed, hxn] at ih ⊢
      rw [ih]

theorem nodup_triePop (t : List File) (n : String) (h : (t.map File.Name).Nodup) :
    ((triePop t n).map File.Name).Nodup :=
  h.sublist ((List.filter_sublist t).map File.Name)

theorem countP_fNamed_nodup (t : List File) (n : String) (h : (t.map File.Name).Nodup) :
    t.countP (fNamed n) = if t.any (fNamed n) then 1 else 0 := by
  induction t with
  | nil => rfl
  | cons x xs ih =>
    rw [List.map_cons, List.nodup_cons] at h
    obtain ⟨hx, hxs⟩ := h
    cases hxn : x.Name == n
    · simp [List.countP_cons, fNamed, hxn, ih hxs]
    · have hxn' : x.Name = n := by simpa using hxn
      have hnone : xs.any (fNamed n) = false := by
        cases han : xs.any (fNamed n)
        · rfl
        · obtain ⟨f, hf, hp⟩ := List.any_eq_true.mp han
          have : f.Name = n := by simpa [fNamed] using hp
          exact absurd (List.mem_map.mpr ⟨f, hf, by rw [this, hxn']⟩) hx
      simp [List.countP_cons, fNamed, hxn, ih hxs, hnone]

theorem trieGet_isSome_eq_any (t : List File) (n : String) :
    (trieGet t n).isSome = t.any (fNamed n) := by
  induction t with
  | nil => rfl
  | cons x xs ih =>
    cases hx : x.Name == n <;> simp [trieGet, List.find?_cons, hx, fNamed] at ih ⊢
    rw [ih]

theorem trieSet_fst_any (t : List File) (f : File) (n : String) :
    ((trieSet t f).1).any (fNamed n) = ((f.Name == n) || t.any (fNamed n)) := by
  unfold trieSet
  cases hf : t.find? (fun x => x.Name == f.Name)
  · simp [fNamed]
  · cases hfn : f.Name == n
    · have h' : f.Name ≠ n := by simpa using hfn
      have := any_triePop_ne t f.Name n h'
      simp [hf, fNamed, hfn, triePop] at this ⊢
      rw [this]
    · simp [hf, fNamed, hfn]

theorem trieSet_fst_nodup (t : List File) (f : File) (h : (t.map File.Name).Nodup) :
    (((trieSet t f).1).map File.Name).Nodup := by
  unfold trieSet
  cases hf : t.find? (fun x => x.Name == f.Name)
  · simp only [List.map_cons, List.nodup_cons]
    refine ⟨fun hmem => ?_, h⟩
    obtain ⟨x, hx, hxe⟩ := List.mem_map.mp hmem
    have := List.find?_eq_none.mp hf x hx
    simp [hxe] at this
  · simp only [List.map_cons, List.nodup_cons]
    constructor
    · intro hmem
      obtain ⟨x, hx, hxe⟩ := List.mem_map.mp hmem
      have hxf := (List.mem_filter.mp hx).2
      simp [hxe] at hxf
    · exact nodup_triePop t f.Name h

theorem locFold_any (locals : List File) (n : String) : ∀ acc : List File,
    ((locals.foldl (fun t l => (trieSet t l).1) acc).any (fNamed n))
      = (acc.any (fNamed n) || locals.any (fNamed n)) := by
  induction locals with
  | nil => intro acc; simp
  | cons l ls ih =>
    intro acc
    simp only [List.foldl_cons, List.any_cons]
    rw [ih ((trieSet acc l).1), trieSet_fst_any]
    cases h1 : l.Name == n <;> cases h2 : acc.any (fNamed n) <;>
      cases h3 : ls.any (fNamed n) <;> simp [fNamed, h1, h2, h3]

theorem locFold_nodup (locals : List File) : ∀ acc : List File,
    (acc.map File.Name).Nodup →
    ((locals.foldl (fun t l => (trieSet t l).1) acc).map File.Name).Nodup := by
  induction locals with
  | nil => intro acc h; simpa using h
  | cons l ls ih => intro acc h; exact ih _ (trieSet_fst_nodup acc l h)

theorem dlNamed_mk_none (n : String) (l : File) :
    dlNamed n { remote := none, loc := some l } = fNamed n l := by
  simp [dlNamed, DirList.name, fNamed]

theorem dlNamed_mk_some (n : String) (r : File) (lo : Option File) :
    dlNamed n { remote := some r, loc := lo } = (r.Name == n) := by
  simp [dlNamed, DirList.name]

theorem locTrie2_any (locTrie : List File) (r : File) (n : String) :
    ((if (trieGet locTrie r.Name).isSome then triePop locTrie r.Name else locTrie).any (fNamed n))
      = (if r.Name = n then false else locTrie.any (fNamed n)) := by
  by_cases hrn : r.Name = n
  · subst hrn
    split
    · simp [any_triePop_self]
    · rename_i hns
      simp only [if_pos rfl]
      rw [← trieGet_isSome_eq_any]
      simpa using hns
  · split <;> simp [hrn, any_triePop_ne _ _ _ hrn]

theorem locTrie2_nodup (locTrie : List File) (m : String) (h : (locTrie.map File.Name).Nodup) :
    (((if (trieGet locTrie m).isSome then triePop locTrie m else locTrie)).map File.Name).Nodup := by
  split
  · exact nodup_triePop _ _ h
  · exact h

theorem mergeGo_cons_true (remTrie locTrie : List File) (r : File) (rest : List File) :
    mergeGo remTrie locTrie true (r :: rest)
      = (({ remote := some r, loc := trieGet locTrie r.Name } : DirList)
          :: (mergeGo remTrie
                (if (trieGet locTrie r.Name).isSome then triePop locTrie r.Name else locTrie)
                true rest).1,
         (mergeGo remTrie
            (if (trieGet locTrie r.Name).isSome then triePop locTrie r.Name else locTrie)
            true rest).2) := by
  simp [mergeGo]

theorem mergeGo_cons_false_clash (remTrie locTrie : List File) (r e : File) (rest : List File)
    (hev : trieGet remTrie r.Name = some e) :
    mergeGo remTrie locTrie false (r :: rest)
      = ((mergeGo (trieSet remTrie r).1 locTrie false rest).1,
         e :: (mergeGo (trieSet remTrie r).1 locTrie false rest).2) := by
  have h2 : (trieSet remTrie r).2 = some e := by rw [trieSet_snd, hev]
  simp [mergeGo, h2]

theorem mergeGo_cons_false_fresh (remTrie locTrie : List File) (r : File) (rest : List File)
    (hev : trieGet remTrie r.Name = none) :
    mergeGo remTrie locTrie false (r :: rest)
      = (({ remote := some r, loc := trieGet locTrie r.Name } : DirList)
          :: (mergeGo (trieSet remTrie r).1
                (if (trieGet locTrie r.Name).isSome then triePop locTrie r.Name else locTrie)
                false rest).1,
         (mergeGo (trieSet remTrie r).1
            (if (trieGet locTrie r.Name).isSome then triePop locTrie r.Name else locTrie)
            false rest).2) := by
  have h2 : (trieSet remTrie r).2 = none := by rw [trieSet_snd, hev]
  simp [mergeGo, h2]

theorem mergeGo_true_countP (n : String) :
    ∀ (remotes remTrie locTrie : List File), (locTrie.map File.Name).Nodup →
    ((mergeGo remTrie locTrie true remotes).1.countP (dlNamed n)
      = remotes.countP (fNamed n)
        + (if remotes.any (fNamed n) then 0 else if locTrie.any (fNamed n) then 1 else 0)) := by
  intro remotes
  induction remotes with
  | nil =>
    intro remTrie locTrie h
    have hfun : (dlNamed n ∘ fun l => ({ remote := none, loc := some l } : DirList)) = fNamed n :=
      funext fun l => dlNamed_mk_none n l
    simp only [mergeGo, List.countP_map, hfun]
    rw [countP_fNamed_nodup _ _ h]
    simp
  | cons r rest ih =>
    intro remTrie locTrie h
    simp only [mergeGo_cons_true, List.countP_cons]
    rw [ih remTrie _ (locTrie2_nodup locTrie r.Name h), dlNamed_mk_some, locTrie2_any]
    cases hrn : r.Name == n
    · have hrn' : r.Name ≠ n := by simpa using hrn
      simp [List.countP_cons, List.any_cons, fNamed, hrn, if_neg hrn']
    · have hrn' : r.Name = n := by simpa using hrn
      simp [List.countP_cons, List.any_cons, fNamed, hrn, hrn']

theorem mergeGo_false_countP (n : String) :
    ∀ (remotes remTrie locTrie : List File), (locTrie.map File.Name).Nodup →
    ((mergeGo remTrie locTrie false remotes).1.countP (dlNamed n)
      = if remTrie.any (fNamed n) then (if locTrie.any (fNamed n) then 1 else 0)
        else if remotes.any (fNamed n) || locTrie.any (fNamed n) then 1 else 0) := by
  intro remotes
  induction remotes with
  | nil =>
    intro remTrie locTrie h
    have hfun : (dlNamed n ∘ fun l => ({ remote := none, loc := some l } : DirList)) = fNamed n :=
      funext fun l => dlNamed_mk_none n l
    simp only [mergeGo, List.countP_map, hfun]
    rw [countP_fNamed_nodup _ _ h]
    cases remTrie.any (fNamed n) <;> simp

  | cons r rest ih =>
    intro remTrie locTrie h
    cases hev : trieGet remTrie r.Name with
    | some e =>
      rw [mergeGo_cons_false_clash remTrie locTrie r e rest hev]
      have hset := trieSet_fst_any remTrie r n
      rw [ih (trieSet remTrie r).1 locTrie h, hset]
      cases hrn : r.Name == n
      · have hrn' : r.Name ≠ n := by simpa using hrn
        simp [List.any_cons, fNamed, hrn]
      · have hrn' : r.Name = n := by simpa using hrn
        have hrm : remTrie.any (fNamed n) = true := by
          rw [← hrn', ← trieGet_isSome_eq_any, hev]; rfl
        simp [List.any_cons, fNamed, hrn, hrm]
    | none =>
      rw [mergeGo_cons_false_fresh remTrie locTrie r rest hev]
      simp only [List.countP_cons]
      rw [ih (trieSet remTrie r).1 _ (locTrie2_nodup locTrie r.Name h),
        trieSet_fst_any, dlNamed_mk_some, locTrie2_any]
      cases hrn : r.Name == n
      · have hrn' : r.Name ≠ n := by simpa using hrn
        simp [List.any_cons, fNamed, hrn, if_neg hrn']
      · have hrn' : r.Name = n := by simpa using hrn
        have hrm : remTrie.any (fNamed n) = false := by
          rw [← hrn', ← trieGet_isSome_eq_any, hev]; rfl
        simp [List.any_cons, fNamed, hrn, hrn', hrm]

theorem dlPaired_mk_none (n : String) (l : Option File) :
    dlPaired n { remote := none, loc := l } = false := by
  simp [dlPaired]

theorem dlPaired_mk_some (n : String) (r : File) (lo : Option File) :
    dlPaired n { remote := some r, loc := lo } = ((r.Name == n) && lo.isSome) := by
  simp [dlPaired]

theorem mergeGo_true_paired (n : String) :
    ∀ (remotes remTrie locTrie : List File), (locTrie.map File.Name).Nodup →
    ((mergeGo remTrie locTrie true remotes).1.countP (dlPaired n)
      = if remotes.any (fNamed n) && locTrie.any (fNamed n) then 1 else 0) := by
  intro remotes
  induction remotes with
  | nil =>
    intro remTrie locTrie h
    have hz : ((locTrie.map fun l => ({ remote := none, loc := some l } : DirList)).countP
        (dlPaired n)) = 0 := by
      rw [List.countP_eq_zero]
      intro d hd
      obtain ⟨l, _, hl⟩ := List.mem_map.mp hd
      simp [← hl, dlPaired]
    simp only [mergeGo, hz]
    simp
  | cons r rest ih =>
    intro remTrie locTrie h
    simp only [mergeGo_cons_true, List.countP_cons]
    rw [ih remTrie _ (locTrie2_nodup locTrie r.Name h), dlPaired_mk_some, locTrie2_any,
      trieGet_isSome_eq_any]
    cases hrn : r.Name == n
    · have hrn' : r.Name ≠ n := by simpa using hrn
      simp [List.any_cons, fNamed, hrn, if_neg hrn']
    · have hrn' : r.Name = n := by simpa using hrn
      rw [hrn'] at *
      cases hl : locTrie.any (fNamed n) <;>
        simp [List.any_cons, fNamed, hrn, hrn', hl]

theorem mergeGo_mem_sides :
    ∀ (remotes remTrie locTrie : List File) (ign : Bool) (d : DirList),
    d ∈ (mergeGo remTrie locTrie ign remotes).1 →
    d.remote.isSome = true ∨ d.loc.isSome = true := by
  intro remotes
  induction remotes with
  | nil =>
    intro remTrie locTrie ign d hd
    simp only [mergeGo] at hd
    obtain ⟨l, _, hl⟩ := List.mem_map.mp hd
    right
    rw [← hl]
    rfl
  | cons r rest ih =>
    intro remTrie locTrie ign d hd
    cases ign
    · cases hev : trieGet remTrie r.Name with
      | some e =>
        rw [mergeGo_cons_false_clash remTrie locTrie r e rest hev] at hd
        exact ih _ _ false d hd
      | none =>
        rw [mergeGo_cons_false_fresh remTrie locTrie r rest hev] at hd
        rcases List.mem_cons.mp hd with hd | hd
        · left; rw [hd]; rfl
        · exact ih _ _ false d hd
    · rw [mergeGo_cons_true] at hd
      rcases List.mem_cons.mp hd with hd | hd
      · left; rw [hd]; rfl
      · exact ih _ _ true d hd

/-- Counterexample to claim C5 as stated: two remote children named `a` and
one local `a`, with `ignoreNameClashes = true`.  The claim demands exactly
one `DirList` for the single distinct name `a` with the later duplicate
dropped; the code emits both remote occurrences — the second one unpaired —
so the merged output has length 2. -/
theorem c5_counterexample :
    (merge [{ Name := "a", Id := "r1" }, { Name := "a", Id := "r2" }]
        [{ Name := "a" }] true).1
      = [{ remote := some { Name := "a", Id := "r1" }, loc := some { Name := "a" } },
         { remote := some { Name := "a", Id := "r2" }, loc := none }] ∧
    (merge [{ Name := "a", Id := "r1" }, { Name := "a", Id := "r2" }]
        [{ Name := "a" }] true).1.length ≠ 1 := by
  decide

/-- Claim C5 amended: per name `n`, with `ignoreNameClashes = false` the
merger emits exactly one `DirList` for each distinct name present in either
stream; with `ignoreNameClashes = true` it emits one `DirList` per remote
occurrence of `n` (duplicates are emitted unpaired, not dropped) plus one
local-only `DirList` when the name exists locally but not remotely, and for
each name at most one of the emitted pairs — the first remote occurrence —
carries the local entry, exactly when the name exists on both sides. -/
theorem c5_merge_counts (remotes locals : List File) (n : String) :
    ((merge remotes locals false).1.countP (dlNamed n)
      = if remotes.any (fNamed n) || locals.any (fNamed n) then 1 else 0) ∧
    ((merge remotes locals true).1.countP (dlNamed n)
      = remotes.countP (fNamed n)
        + (if remotes.any (fNamed n) then 0 else if locals.any (fNamed n) then 1 else 0)) ∧
    ((merge remotes locals true).1.countP (dlPaired n)
      = if remotes.any (fNamed n) && locals.any (fNamed n) then 1 else 0) := by
  have hnod : (((locals.foldl (fun t l => (trieSet t l).1) []).map File.Name)).Nodup :=
    locFold_nodup locals [] (by simp)
  have hany : (locals.foldl (fun t l => (trieSet t l).1) []).any (fNamed n)
      = locals.any (fNamed n) := by
    simpa using locFold_any locals n []
  refine ⟨?_, ?_, ?_⟩
  · have h := mergeGo_false_countP n remotes [] _ hnod
    simpa [merge, hany] using h
  · have h := mergeGo_true_countP n remotes [] _ hnod
    simpa [merge, hany] using h
  · have h := mergeGo_true_paired n remotes [] _ hnod
    simpa [merge, hany] using h

/-- Claim C10 (confirmed): every `dirList` emitted by `merge` has a non-nil
remote or local side, so `dirList.Name()` never reaches the nil-pointer
dereference of `d.local.Name` (modelled: `DirList.name` is `some` on all
merger output). -/
theorem c10_merge_name_safe (remotes locals : List File) (ign : Bool) (d : DirList)
    (hd : d ∈ (merge remotes locals ign).1) : (DirList.name d).isSome = true := by
  have h := mergeGo_mem_sides remotes [] _ ign d (by simpa [merge] using hd)
  rcases d with ⟨ro, lo⟩
  rcases ro with _ | r
  · rcases lo with _ | l
    · simp at h
    · simp [DirList.name]
  · simp [DirList.name]

/-- Witness for C10 at a concrete merge of one local-only entry. -/
theorem c10_merge_name_safe_witness :
    (DirList.name { remote := none, loc := some { Name := "a" } }).isSome = true :=
  c10_merge_name_safe [] [{ Name := "a" }] true
    { remote := none, loc := some { Name := "a" } } (by decide)

theorem not_conflict_some (src dest : Option File) (idx : Index) (push : Bool) :
    (!(conflict src dest (some idx) push))
      = ((push &&
           (match dest with
            | some d => timeUnix d.ModTime == idx.ModTime
            | none => false)) ||
         (match src with
          | some s =>
            timeUnix (timeRound s.ModTime) == idx.ModTime || s.Md5Checksum == idx.Md5Checksum
          | none => true)) := by
  unfold conflict
  cases dest with
  | none => cases src <;> cases push <;> simp [bne]
  | some d =>
    cases src with
    | none =>
      cases push <;> simp
    | some s =>
      cases push
      · simp [bne, Bool.not_and]
      · cases hg : timeUnix d.ModTime == idx.ModTime <;> simp [hg, bne, Bool.not_and]

theorem spuriousAmended_eq (push : Bool) (idxf : String → Option Index) (ch : Change) :
    spuriousAmended push idxf ch
      = !(conflict (ch.localSide push) (ch.remoteSide push) (idxf (ch.conflictFileId push)) push) := by
  unfold spuriousAmended
  cases hidx : idxf (ch.conflictFileId push)
  · simp [conflict]
  · rw [not_conflict_some]

/-- Counterexample to claim C1 as stated: a push-mode `ModConflict` change
with an index record, remote modTime (50 s) differing from the index
(100 s), and a src/local side whose rounded modTime equals the index's but
whose checksum differs from the index's.  None of the claim's three spurious
conditions holds (its third condition conjoins modTime **and** checksum
agreement), so the claim requires the change to stay unresolved; the code's
test is `modTime differs AND checksum differs`, i.e. spurious already when
either one agrees, so the resolver resolves it and marks `IgnoreConflict`. -/
theorem c1_counterexample :
    (let sL : File := { Id := "id1", Md5Checksum := "x", ModTime := 100 * nsPerSecond, Size := 5 };
     let sR : File := { Id := "id2", Md5Checksum := "y", ModTime := 50 * nsPerSecond, Size := 7 };
     let ch : Change := { Src := some sL, Dest := some sR };
     let idx : Index := { ModTime := 100, Md5Checksum := "z" };
     Change.Op (fun _ => none) ch = OpModConflict ∧
     ¬ (timeUnix sR.ModTime = idx.ModTime) ∧
     ¬ (timeUnix (timeRound sL.ModTime) = idx.ModTime ∧ sL.Md5Checksum = idx.Md5Checksum) ∧
     resolveConflicts (fun _ => none) true (fun _ => some idx) [ch]
       = ([{ ch with IgnoreConflict := true }], [])) := by
  decide

/-- Claim C1 amended: over a list of `ModConflict` changes, the resolver
marks and resolves exactly the changes that are spurious in the amended
sense (`spuriousAmended`: no index record, or on push the remote side's Unix
modTime equals the index's, or the **local** side's rounded UTC modTime
equals the index's modTime **or** its checksum equals the index's checksum,
under the fileId picked from the local side's id with fallback to the
remote's); all others remain unresolved, in order. -/
theorem c1_resolveConflicts_partition (hash : String → Option String) (push : Bool)
    (idxf : String → Option Index) (chs : List Change)
    (hall : ∀ ch ∈ chs, ch.Op hash = OpModConflict) :
    resolveConflicts hash push idxf chs
      = ((chs.filter (spuriousAmended push idxf)).map
           (fun ch => { ch with IgnoreConflict := true }),
         chs.filter (fun ch => !(spuriousAmended push idxf ch))) := by
  induction chs with
  | nil => rfl
  | cons ch rest ih =>
    have hhead := hall ch (List.mem_cons_self ch rest)
    have hrest : ∀ c ∈ rest, c.Op hash = OpModConflict :=
      fun c hc => hall c (List.mem_cons_of_mem ch hc)
    have hop : (ch.Op hash == OpModConflict) = true := by simp [hhead]
    simp only [resolveConflicts]
    rw [ih hrest, ← spuriousAmended_eq push idxf ch]
    cases hsp : spuriousAmended push idxf ch <;>
      simp [List.filter_cons, hsp, hop]

/-- Witness for the amended C1 at a concrete singleton conflict list. -/
theorem c1_resolveConflicts_partition_witness :
    resolveConflicts (fun _ => none) true (fun _ => some { ModTime := 100, Md5Checksum := "z" })
        [{ Src := some { Id := "a1", Md5Checksum := "p", ModTime := 100 * nsPerSecond, Size := 5 },
           Dest := some { Id := "a2", Md5Checksum := "q", ModTime := 30 * nsPerSecond, Size := 9 } }]
      = (([({ Src := some { Id := "a1", Md5Checksum := "p", ModTime := 100 * nsPerSecond, Size := 5 },
              Dest := some { Id := "a2", Md5Checksum := "q", ModTime := 30 * nsPerSecond, Size := 9 } }
            : Change)].filter
            (spuriousAmended true (fun _ => some { ModTime := 100, Md5Checksum := "z" }))).map
           (fun ch => { ch with IgnoreConflict := true }),
         [({ Src := some { Id := "a1", Md5Checksum := "p", ModTime := 100 * nsPerSecond, Size := 5 },
             Dest := some { Id := "a2", Md5Checksum := "q", ModTime := 30 * nsPerSecond, Size := 9 } }
           : Change)].filter
           (fun ch => !(spuriousAmended true (fun _ => some { ModTime := 100, Md5Checksum := "z" }) ch))) :=
  c1_resolveConflicts_partition (fun _ => none) true
    (fun _ => some { ModTime := 100, Md5Checksum := "z" }) _ (by decide)

end Drive
